import Mathlib

/-!
Verification of the doomcord server template (`src/main.js`).

The file shallowly embeds the program's pure core (`forgeDemo`, the URL
path decoding) and its stateful routines (`clearOldCache`, `handleRequest`)
as Lean functions.  Stateful code is modelled by explicit state passing:
the filesystem is a set of paths, and the outcomes of external processes
(the game engine, the transcoder) and of fallible I/O calls are supplied
by explicit oracle parameters, since those collaborators are opaque to the
program.  All definitions are executable.
-/

deriving instance DecidableEq for Except

namespace Doomcord

/-! ## Constants (src/main.js lines 5, 90-93, 163-165) -/

/-- `INPUT_DURATION` (line 5): tick records per expanded input character. -/
def INPUT_DURATION : Nat := 15

/-- `CACHE_CLEAR_HIGH_THRESHOLD` (line 90): 1 GB. -/
def CACHE_CLEAR_HIGH_THRESHOLD : Nat := 1024 * 1024 * 1024

/-- `CACHE_CLEAR_LOW_THRESHOLD` (line 91): 2 GB. -/
def CACHE_CLEAR_LOW_THRESHOLD : Nat := 1024 * 1024 * 1024 * 2

/-- `CACHE_DEPTH_THRESHOLD` (line 93). -/
def CACHE_DEPTH_THRESHOLD : Nat := 5

/-- `SAVE_THRESHOLD` (line 163). -/
def SAVE_THRESHOLD : Nat := 1

/-! ## forgeDemo (lines 16-68)

The demo buffer is an `Int8Array`; we model its cells as `Int` values in
`[-128, 127]`.  The imperative construction writes a 13-byte header at
offsets 0-12, the terminator `0x80` (signed value `-128`) at the final
offset `13 + 60*n`, and, for expanded character `i` and repetition `j`,
a 4-byte tick record at offset `13 + i*60 + j*4` (`j < 15`).  These writes
cover pairwise disjoint ranges: the tick records exactly fill
`[13, 13 + 60*n)`, so the buffer equals header ++ tick blocks ++ terminator,
which is how we build it. -/

/-- `inputs.replaceAll("e", "eee")` (line 18): every `'e'` character is
tripled, all other characters are kept as they are. -/
def expandInputs (s : List Char) : List Char :=
  s.flatMap fun c => if c == 'e' then ['e', 'e', 'e'] else [c]

/-- The 4-byte tick record for one input character (lines 39-60).
`none` corresponds to the `default` branch, where the JS code would call
`buffer.set(undefined)` and throw. -/
def ticOf : Char → Option (List Int)
  | 'w' => some [50, 0, 0, 0]
  | 's' => some [-50, 0, 0, 0]
  | 'a' => some [0, 0, 1, 0]
  | 'd' => some [0, 0, -1, 0]
  | 'q' => some [0, 0, 0, 1]
  | 'e' => some [0, 0, 0, 2]
  | _ => none

/-- JS `ToInt8`: storing a number into an `Int8Array` cell reduces it
modulo 2^8 into the signed range `[-128, 127]`. -/
def toInt8 (n : Int) : Int := (n + 128) % 256 - 128

/-- The 60 bytes contributed by one expanded input character: its tick
record repeated `INPUT_DURATION = 15` times (lines 61-63). -/
def ticBlock (c : Char) : Option (List Int) :=
  (ticOf c).map fun tic => (List.replicate INPUT_DURATION tic).flatten

/-- `forgeDemo` (lines 16-68).  Returns `none` exactly when some expanded
character is outside the `wasdqe` alphabet (the JS code throws there). -/
def forgeDemo (inputs : List Char) (episode : Int) (map : Int) : Option (List Int) :=
  let expanded := expandInputs inputs
  (expanded.mapM ticBlock).map fun blocks =>
    [109, 0, toInt8 episode, toInt8 map, 0, 0, 0, 0, 0, 1, 0, 0, 0]
      ++ blocks.flatten ++ [-128]

/-! ## Path decoding (lines 226-241) -/

/-- The six-symbol input alphabet. -/
def tokenAlphabet : List Char := ['w', 'a', 's', 'd', 'q', 'e']

/-- `inputs.replace(/[^wasdqe]/g, "")` (line 239). -/
def filterInputs (s : List Char) : List Char :=
  s.filter fun c => tokenAlphabet.contains c

/-- JS whitespace characters that can occur in our strings (`ToNumber`
treats whitespace-only strings as 0). -/
def isJsSpace (c : Char) : Bool :=
  c == ' ' || c == '\t' || c == '\n' || c == '\r'

/-- JS `ToNumber` of a one-character string: digits give their value,
whitespace gives 0, anything else gives NaN (modelled as `none`).
Used for `inputs[0]` / `inputs[1]` inside `Math.min`/`Math.max`. -/
def charToNum (c : Char) : Option Int :=
  if c.isDigit then some ((c.toNat : Int) - ('0'.toNat : Int))
  else if isJsSpace c then some 0
  else none

/-- Whether `Number(s)` is NOT NaN for the at-most-two-character string
`s = inputs.slice(0, 2)` (the `!isNaN(...)` test on line 230).
`Number("") = 0`; a single character must be a digit or whitespace;
two characters are numeric for digit pairs, signed digits, `"d."`,
`".d"`, and digit/whitespace mixtures. -/
def prefixIsNumeric : List Char → Bool
  | [] => true
  | [c] => c.isDigit || isJsSpace c
  | [c₁, c₂] =>
      (c₁.isDigit && c₂.isDigit)
      || ((c₁ == '+' || c₁ == '-') && c₂.isDigit)
      || (c₁.isDigit && c₂ == '.')
      || (c₁ == '.' && c₂.isDigit)
      || (isJsSpace c₁ && (c₂.isDigit || isJsSpace c₂))
      || (c₁.isDigit && isJsSpace c₂)
  | _ => false

/-- `Math.max(Math.min(inputs[i], hi), 1)` (lines 232-233): `none` models
both `undefined` indexing and NaN, which `Math.min`/`Math.max` propagate. -/
def clampJs (c : Option Char) (hi : Int) : Option Int :=
  match c with
  | none => none
  | some c =>
    match charToNum c with
    | none => none
    | some v => some (max (min v hi) 1)

/-- Lines 227-241: episode/map extraction, character filtering and the
`"e"` placeholder, applied to the already lower-cased token part. -/
def decodeInputs (inputs : List Char) : Option Int × Option Int × List Char :=
  if prefixIsNumeric (inputs.take 2) then
    let episode := clampJs inputs[0]? 3
    let mp := clampJs inputs[1]? 8
    let rest := filterInputs (inputs.drop 2)
    (episode, mp, if rest.isEmpty then ['e'] else rest)
  else
    let rest := filterInputs inputs
    (some 1, some 1, if rest.isEmpty then ['e'] else rest)

/-- `path.slice(1, -6).toLowerCase()` followed by `decodeInputs`
(line 226): drop the leading slash and the trailing `i.webp`. -/
def decodePath (path : List Char) : Option Int × Option Int × List Char :=
  let raw := path.drop 1
  decodeInputs ((raw.take (raw.length - 6)).map Char.toLower)

/-! ## clearOldCache (lines 102-144)

The routine is modelled over:
- `probe : Nat → Except Unit Nat`, the result of the k-th call to
  `diskusage.checkSync` (`Except.error` = the call throws); call 0 is the
  initial check on line 105, calls 1, 2, ... happen inside the deletion
  loop on line 139;
- `readdirOk : Bool`, whether `fs.readdir` on line 108 succeeds;
- `entries`, the directory listing, each entry carrying its name, its
  `isDirectory()` answer, its creation time, and whether its `fs.stat`
  (line 117) and `fs.rm` (line 138) calls succeed. -/

structure FsEntry where
  name : String
  isDirectory : Bool
  birthtime : Int
  statOk : Bool
  rmOk : Bool
deriving DecidableEq, Repr

/-- Lines 111-124: keep directories whose name is longer than
`CACHE_DEPTH_THRESHOLD + 2` (token length plus episode/map digits) and
whose `fs.stat` call succeeds (a failing `stat` is caught and the entry
skipped). -/
def evictionCandidates (entries : List FsEntry) : List FsEntry :=
  entries.filter fun e =>
    e.isDirectory && decide (e.name.length > CACHE_DEPTH_THRESHOLD + 2) && e.statOk

/-- Stable insertion of `d` after every element with creation time
`≤ d.birthtime`. -/
def insertByBirth (d : FsEntry) : List FsEntry → List FsEntry
  | [] => [d]
  | e :: rest =>
      if e.birthtime ≤ d.birthtime then e :: insertByBirth d rest
      else d :: e :: rest

/-- `dirs.sort(...)` (lines 129-131): stable ascending sort by
`birthtime`, matching the JS comparator `a.birthtime - b.birthtime`. -/
def sortByBirth (l : List FsEntry) : List FsEntry :=
  l.foldl (fun acc d => insertByBirth d acc) []

/-- The deletion loop (lines 134-142).  `k` indexes the next `probe`
call.  Each iteration takes the oldest remaining candidate; if its `rm`
succeeds it is recorded as deleted and the free space is re-checked
(a throwing re-check is caught and the loop continues); the loop breaks
once a re-check reports free space above `CACHE_CLEAR_LOW_THRESHOLD`.
A failing `rm` is caught: the candidate is skipped and, since the
re-check is not reached, `k` does not advance. -/
def evictLoop (probe : Nat → Except Unit Nat) : List FsEntry → Nat → List FsEntry
  | [], _ => []
  | d :: rest, k =>
      if d.rmOk then
        match probe k with
        | .error _ => d :: evictLoop probe rest (k + 1)
        | .ok free =>
            if free > CACHE_CLEAR_LOW_THRESHOLD then [d]
            else d :: evictLoop probe rest (k + 1)
      else
        evictLoop probe rest k

/-- `clearOldCache` (lines 102-144).  Returns the list of deleted cache
entries in deletion order, or `Except.error` when the routine itself
throws.  Note that the initial `diskusage.checkSync` (line 105) and the
`fs.readdir` (line 108) are NOT wrapped in any `try`, so their failures
propagate out of the function. -/
def clearOldCache (probe : Nat → Except Unit Nat) (readdirOk : Bool)
    (entries : List FsEntry) : Except Unit (List FsEntry) :=
  match probe 0 with
  | .error e => .error e
  | .ok free =>
    if free > CACHE_CLEAR_HIGH_THRESHOLD then .ok []
    else if !readdirOk then .error ()
    else
      let dirs := evictionCandidates entries
      if dirs.isEmpty then .ok []
      else .ok (evictLoop probe (sortByBirth dirs) 1)

/-! ## handleRequest (lines 189-378)

The filesystem is a set of paths; a path is its list of components
relative to `__dirname`.  `fs.rm(p, { recursive: true })` removes every
path having `p` as a component-wise leading segment.  The outcomes of the
opaque collaborators (the engine invocation, the three ffmpeg
invocations, the `Bun.write`/`fs.rename` calls inside the render attempt)
and the scratch-directory name from `createTempDir` are supplied by an
`AttemptEnv` oracle, one per attempt.  Elided side effects, irrelevant
to path existence: the request/render statistics counters and
`stats.txt` (lines 179-180, 367), the level-transition `copyFile`
(lines 361-364, which overwrites the content of the already-present
preview artifact without changing which paths exist), and the
best-effort `clearOldCache` housekeeping call in the `finally` block
(line 356, verified separately above; the request-level claims quantify
over runs where it deletes nothing). -/

/-- A filesystem path, as components relative to `__dirname`. -/
abbrev DPath := List String

/-- The set of existing paths. -/
abbrev Fsys := List DPath

/-- `fs.exists`. -/
def fsExists (fs : Fsys) (p : DPath) : Bool := fs.contains p

/-- Creating a file or directory. -/
def fsAdd (p : DPath) (fs : Fsys) : Fsys := p :: fs

/-- `fs.rm(p, { recursive: true, force: true })`: remove `p` and
everything below it. -/
def fsRmRec (p : DPath) (fs : Fsys) : Fsys :=
  fs.filter fun q => !(p.isPrefixOf q)

/-- `fs.rename(src, dst)`: fails (`none`) when the source is missing or
when the oracle says the call throws; otherwise moves the path. -/
def fsRename (ok : Bool) (src dst : DPath) (fs : Fsys) : Option Fsys :=
  if ok && fs.contains src then
    some (fsAdd dst (fs.filter fun q => !(q == src)))
  else none

/-- `hay.includes(pat)` on strings, via character lists. -/
def hasInfix (pat : List Char) : List Char → Bool
  | [] => pat.isEmpty
  | h :: t => pat.isPrefixOf (h :: t) || hasInfix pat t

/-- JS `String.prototype.includes`. -/
def strContains (hay pat : String) : Bool := hasInfix pat.toList hay.toList

/-- Result of a `Bun.$` shell invocation: exit status plus captured
standard output (a `ShellError` always carries the process output). -/
inductive ShellRes where
  | ok (stdout : String)
  | fail (stdout : String)
deriving DecidableEq, Repr

/-- Oracle for one render attempt: the fresh scratch-directory name
chosen by `createTempDir`, the outcome of every fallible call inside the
`try` block, which files the engine produces, and the wall-clock
timestamp used for the error log record. -/
structure AttemptEnv where
  tmpName : String
  writeDemoOk : Bool
  doom : ShellRes
  doomMakesRender : Bool
  doomMakesSave : Bool
  writeConcatOk : Bool
  ffConcat : ShellRes
  ffTrim : ShellRes
  renameRenderOk : Bool
  ffWebp : ShellRes
  renameSaveOk : Bool
  time : String
deriving DecidableEq, Repr

/-- Environment for a whole request: one attempt oracle for the first
run and one for the retry. -/
structure Env where
  attempt1 : AttemptEnv
  attempt2 : AttemptEnv
deriving DecidableEq, Repr

/-- Observable events of a run, in order. -/
inductive Ev where
  | enter (retry : Bool)
  | wroteWebp (p : DPath)
  | promotedSave (p : DPath)
  | logged (time : String) (retry : Bool)
deriving DecidableEq, Repr

/-- `NOCACHE_HEADERS` presence is tracked as a boolean on responses. -/
structure HResponse where
  status : Nat
  body : String
  nocache : Bool
deriving DecidableEq, Repr

/-- Cache entry directory for a key (line 248). -/
def cacheDir (em : String) (inputs : List Char) : DPath :=
  ["cache", em ++ String.mk inputs]

/-- `outputPathWEBP` (line 249). -/
def outputWEBP (em : String) (inputs : List Char) : DPath :=
  cacheDir em inputs ++ ["output.webp"]

/-- `outputPathMP4` (line 250). -/
def outputMP4 (em : String) (inputs : List Char) : DPath :=
  cacheDir em inputs ++ ["output.mp4"]

/-- `savePathDSG` (line 258). -/
def saveDSG (em : String) (save : List Char) : DPath :=
  ["cache", em ++ String.mk save, "doomsav0.dsg"]

/-- Scratch directory path (line 78). -/
def tmpDir (name : String) : DPath := ["tmp", name]

/-- The error message ffmpeg prints when the output file exists and
overwriting is declined (checked on line 327). -/
def overwriteMsg : String := "already exists. Overwrite?"

/-- The `try` block of the cache-miss pipeline (lines 280-335): forging
the demo, running the engine (whose own failure is caught and swallowed
on lines 294-300, keeping its output), concatenating or adopting the
render, transcoding to WEBP with the already-exists race suppressed
(lines 315-328), and promoting the snapshot (line 335).  Returns the
filesystem after the attempt's writes, the events, and whether the
attempt failed (i.e. the outer `catch` on line 337 is taken). -/
def runAttempt (a : AttemptEnv) (em : String) (inputs save : List Char)
    (fs0 : Fsys) : Fsys × List Ev × Bool :=
  let tmp := tmpDir a.tmpName
  let demoP := tmp ++ ["demo.lmp"]
  let renderP := tmp ++ ["render.mp4"]
  let tmpSaveP := tmp ++ ["doomsav0.dsg"]
  let newSaveP := cacheDir em inputs ++ ["doomsav0.dsg"]
  -- Bun.write of the demo file (line 283)
  if !a.writeDemoOk then (fs0, [], true)
  else
    let fs1 := fsAdd demoP fs0
    -- engine invocation (lines 285-300); its reported failure is caught,
    -- and the engine may have produced its output files either way
    let fs2 := if a.doomMakesRender then fsAdd renderP fs1 else fs1
    let fs3 := if a.doomMakesSave then fsAdd tmpSaveP fs2 else fs2
    -- inner try (lines 302-333): concatenate/adopt, then transcode
    let concatStep : Fsys × Bool :=
      if save.isEmpty then
        -- no predecessor: adopt the render as the archival video (line 312)
        match fsRename a.renameRenderOk renderP (outputMP4 em inputs) fs3 with
        | none => (fs3, true)
        | some fs' => (fs', false)
      else
        -- predecessor: concat list file, concat, trim (lines 306-309)
        if !a.writeConcatOk then (fs3, true)
        else
          let fsA := fsAdd (tmp ++ ["concat.txt"]) fs3
          match a.ffConcat with
          | .fail _ => (fsA, true)
          | .ok _ =>
            let fsB := fsAdd (tmp ++ ["concat.mp4"]) fsA
            match a.ffTrim with
            | .fail _ => (fsB, true)
            | .ok _ => (fsAdd (outputMP4 em inputs) fsB, false)
    match concatStep with
    | (fs4, true) => (fs4, [], true)
    | (fs4, false) =>
      -- WEBP transcode (lines 315-328)
      let webpStep : Fsys × List Ev × Bool :=
        match a.ffWebp with
        | .ok _ => (fsAdd (outputWEBP em inputs) fs4, [Ev.wroteWebp (outputWEBP em inputs)], false)
        | .fail s =>
            if strContains s overwriteMsg then (fs4, [], false)
            else (fs4, [], true)
      match webpStep with
      | (fs5, evs, true) => (fs5, evs, true)
      | (fs5, evs, false) =>
        -- snapshot promotion (line 335)
        match fsRename a.renameSaveOk tmpSaveP newSaveP fs5 with
        | none => (fs5, evs, true)
        | some fs6 => (fs6, evs ++ [Ev.promotedSave newSaveP], false)

/-- `NaN`-aware number-to-string used to build the `em` key part
(line 246). -/
def jsNumStr : Option Int → String
  | none => "NaN"
  | some n => toString n

/-- The decoded parts of a request path (lines 226-246). -/
def reqDecoded (req : List Char) : Option Int × Option Int × List Char :=
  decodePath req

/-- The `em` episode/map key component of a request. -/
def reqEm (req : List Char) : String :=
  jsNumStr (reqDecoded req).1 ++ jsNumStr (reqDecoded req).2.1

/-- The filtered input sequence of a request. -/
def reqInputs (req : List Char) : List Char := (reqDecoded req).2.2

/-- `inputs.slice(0, -SAVE_THRESHOLD)` (line 244): predecessor key
tokens. -/
def reqSave (req : List Char) : List Char :=
  (reqInputs req).take ((reqInputs req).length - SAVE_THRESHOLD)

/-- Path rendered back to a string for a served-file response body. -/
def dpathStr (p : DPath) : String := String.intercalate "/" p

/-- Outcome of one pass through the body of `handleRequest`:
either a response was produced, or the outer `catch` decided to retry
(line 351; only possible on a first attempt), remembering the scratch
directory name whose deferred `finally` removal runs after the awaited
recursive call resolves. -/
inductive RoundOut where
  | done (resp : HResponse)
  | failedRetry (tmpName : String)
deriving DecidableEq, Repr

/-- One pass through the body of `handleRequest` (lines 189-378) with
the given `retry` flag: request validation and routing (lines 192-223),
decoding (lines 226-246), the cache lookup (line 253), the continuity
gate (lines 262-265), the render attempt, and the outer `catch` /
`finally` (lines 337-357).  `checkRequestOrigin` returns `true`
unconditionally (line 154). -/
def handleRound (env : Env) (req : List Char) (retry : Bool) (fs : Fsys) :
    Fsys × List Ev × RoundOut :=
  let evs0 : List Ev := [Ev.enter retry]
  if req.length > 220 then (fs, evs0, .done ⟨200, "messages/charlimit.webp", false⟩)
  else if hasInfix "i.wxbp".toList req then (fs, evs0, .done ⟨200, "messages/doomkisser2.jpg", false⟩)
  else if req == "/i.webp".toList then (fs, evs0, .done ⟨200, "messages/start.webp", false⟩)
  else if req == "/favicon.ico".toList then (fs, evs0, .done ⟨404, "", false⟩)
  else if !("i.webp".toList.isSuffixOf req) then (fs, evs0, .done ⟨200, "messages/404.webp", false⟩)
  else
    let em := reqEm req
    let inputs := reqInputs req
    let save := reqSave req
    -- cache hit (lines 253, 369-376)
    if fsExists fs (outputWEBP em inputs) then
      (fs, evs0, .done ⟨200, dpathStr (outputWEBP em inputs), true⟩)
    else
      let a := if retry then env.attempt2 else env.attempt1
      let tmp := tmpDir a.tmpName
      let fs1 := fsAdd tmp fs
      -- continuity check (lines 262-265)
      if !save.isEmpty && !(fsExists fs1 (saveDSG em save)) then
        (fsRmRec tmp fs1, evs0, .done ⟨500, "", true⟩)
      else
        -- ensure the cache entry directory exists (lines 268-270)
        let fs2 := if fsExists fs1 (cacheDir em inputs) then fs1
                   else fsAdd (cacheDir em inputs) fs1
        match runAttempt a em inputs save fs2 with
        | (fs3, evA, true) =>
          -- outer catch (lines 337-352): log, then retry or bail out
          let evL := Ev.logged a.time retry
          match retry with
          | true =>
            (fsRmRec tmp fs3, evs0 ++ evA ++ [evL],
              .done ⟨200, "messages/error.webp", true⟩)
          | false =>
            (fs3, evs0 ++ evA ++ [evL], .failedRetry a.tmpName)
        | (fs3, evA, false) =>
          -- finally (lines 353-357), then serve the artifact (line 376)
          (fsRmRec tmp fs3, evs0 ++ evA,
            .done ⟨200, dpathStr (outputWEBP em inputs), true⟩)

/-- `handleRequest` (lines 189-378).  The request is its URL path.  The
source function re-invokes itself once with `retry = true` on line 351;
since that call cannot recurse further (the second round's `catch`
returns the terminal error artifact), the recursion is unfolded into at
most two rounds.  The last match arm is unreachable: a round with
`retry = true` never yields `failedRetry`. -/
def handleRequest (env : Env) (req : List Char) (retry : Bool) (fs : Fsys) :
    Fsys × List Ev × HResponse :=
  match handleRound env req retry fs with
  | (fs1, evs1, .done resp) => (fs1, evs1, resp)
  | (fs1, evs1, .failedRetry tn) =>
    match handleRound env req true fs1 with
    | (fs2, evs2, .done resp) => (fsRmRec (tmpDir tn) fs2, evs1 ++ evs2, resp)
    | (fs2, evs2, .failedRetry _) =>
        (fsRmRec (tmpDir tn) fs2, evs1 ++ evs2, ⟨200, "messages/error.webp", true⟩)

/-! ## Lemmas about the eviction routine -/

/-- Every element of `insertByBirth d l` is `d` or an element of `l`. -/
theorem mem_insertByBirth {x d : FsEntry} : ∀ {l : List FsEntry},
    x ∈ insertByBirth d l ↔ x = d ∨ x ∈ l := by
  intro l
  induction l with
  | nil => simp [insertByBirth]
  | cons e rest ih =>
      simp only [insertByBirth]
      by_cases h : e.birthtime ≤ d.birthtime
      · rw [if_pos h]
        simp only [List.mem_cons, ih]
        tauto
      · rw [if_neg h]
        simp only [List.mem_cons]

/-- `sortByBirth` preserves membership. -/
theorem mem_sortByBirth {x : FsEntry} {l : List FsEntry} :
    x ∈ sortByBirth l ↔ x ∈ l := by
  have aux : ∀ (l : List FsEntry) (acc : List FsEntry),
      x ∈ l.foldl (fun acc d => insertByBirth d acc) acc ↔ x ∈ l ∨ x ∈ acc := by
    intro l
    induction l with
    | nil => simp
    | cons d rest ih =>
        intro acc
        simp only [List.foldl_cons, ih, mem_insertByBirth, List.mem_cons]
        tauto
  simpa using aux l []

/-- Inserting into a list sorted by creation time keeps it sorted. -/
theorem pairwise_insertByBirth {d : FsEntry} : ∀ {l : List FsEntry},
    l.Pairwise (fun a b => a.birthtime ≤ b.birthtime) →
    (insertByBirth d l).Pairwise (fun a b => a.birthtime ≤ b.birthtime) := by
  intro l
  induction l with
  | nil => simp [insertByBirth]
  | cons e rest ih =>
      intro hp
      rw [List.pairwise_cons] at hp
      by_cases h : e.birthtime ≤ d.birthtime
      · simp only [insertByBirth, if_pos h, List.pairwise_cons]
        refine ⟨?_, ih hp.2⟩
        intro a ha
        rcases mem_insertByBirth.mp ha with rfl | ha
        · exact h
        · exact hp.1 a ha
      · simp only [insertByBirth, if_neg h]
        rw [List.pairwise_cons]
        constructor
        · intro a ha
          rcases List.mem_cons.mp ha with rfl | ha
          · omega
          · have := hp.1 a ha
            omega
        · rw [List.pairwise_cons]
          exact ⟨hp.1, hp.2⟩

/-- The sorted candidate list is sorted ascending by creation time. -/
theorem pairwise_sortByBirth (l : List FsEntry) :
    (sortByBirth l).Pairwise (fun a b => a.birthtime ≤ b.birthtime) := by
  have aux : ∀ (l : List FsEntry) (acc : List FsEntry),
      acc.Pairwise (fun a b => a.birthtime ≤ b.birthtime) →
      (l.foldl (fun acc d => insertByBirth d acc) acc).Pairwise
        (fun a b => a.birthtime ≤ b.birthtime) := by
    intro l
    induction l with
    | nil => intro acc h; simpa using h
    | cons d rest ih =>
        intro acc h
        exact ih _ (pairwise_insertByBirth h)
  exact aux l [] (by simp)

/-- The deletion log is a sublist of the candidate queue. -/
theorem evictLoop_sublist (probe : Nat → Except Unit Nat) :
    ∀ (l : List FsEntry) (k : Nat), (evictLoop probe l k).Sublist l := by
  intro l
  induction l with
  | nil => intro k; simp [evictLoop]
  | cons d rest ih =>
      intro k
      simp only [evictLoop]
      by_cases h : d.rmOk
      · simp only [if_pos h]
        cases probe k with
        | error e => exact (ih (k + 1)).cons₂ d
        | ok free =>
            by_cases hf : free > CACHE_CLEAR_LOW_THRESHOLD
            · simp only [if_pos hf]
              exact ((List.nil_sublist rest).cons₂ d)
            · simp only [if_neg hf]
              exact (ih (k + 1)).cons₂ d
      · simp only [if_neg h]
        exact (ih k).cons d

/-- Only entries whose `rm` succeeded are recorded as deleted. -/
theorem evictLoop_rmOk (probe : Nat → Except Unit Nat) :
    ∀ (l : List FsEntry) (k : Nat) (d : FsEntry),
      d ∈ evictLoop probe l k → d.rmOk = true := by
  intro l
  induction l with
  | nil => intro k d h; simp [evictLoop] at h
  | cons e rest ih =>
      intro k d h
      simp only [evictLoop] at h
      by_cases he : e.rmOk
      · simp only [if_pos he] at h
        cases hp : probe k with
        | error u =>
            rw [hp] at h
            rcases List.mem_cons.mp h with rfl | h
            · exact he
            · exact ih (k + 1) d h
        | ok free =>
            rw [hp] at h
            by_cases hf : free > CACHE_CLEAR_LOW_THRESHOLD
            · simp only [if_pos hf, List.mem_singleton] at h
              subst h; exact he
            · simp only [if_neg hf] at h
              rcases List.mem_cons.mp h with rfl | h
              · exact he
              · exact ih (k + 1) d h
      · simp only [if_neg he] at h
        exact ih k d h

/-- The loop either broke because a free-space re-check reported more
than the low threshold, or it processed the whole queue, deleting every
entry whose `rm` succeeded. -/
theorem evictLoop_complete (probe : Nat → Except Unit Nat) :
    ∀ (l : List FsEntry) (k : Nat),
      (∃ k' v, probe k' = .ok v ∧ v > CACHE_CLEAR_LOW_THRESHOLD) ∨
      (∀ d ∈ l, d.rmOk = true → d ∈ evictLoop probe l k) := by
  intro l
  induction l with
  | nil => intro k; right; intro d h; simp at h
  | cons e rest ih =>
      intro k
      by_cases he : e.rmOk
      · cases hp : probe k with
        | error u =>
            rcases ih (k + 1) with h | h
            · exact Or.inl h
            · right
              intro d hd hdok
              simp only [evictLoop, if_pos he, hp]
              rcases List.mem_cons.mp hd with rfl | hd
              · exact List.mem_cons_self _ _
              · exact List.mem_cons_of_mem _ (h d hd hdok)
        | ok free =>
            by_cases hf : free > CACHE_CLEAR_LOW_THRESHOLD
            · exact Or.inl ⟨k, free, hp, hf⟩
            · rcases ih (k + 1) with h | h
              · exact Or.inl h
              · right
                intro d hd hdok
                simp only [evictLoop, if_pos he, hp, if_neg hf]
                rcases List.mem_cons.mp hd with rfl | hd
                · exact List.mem_cons_self _ _
                · exact List.mem_cons_of_mem _ (h d hd hdok)
      · rcases ih k with h | h
        · exact Or.inl h
        · right
          intro d hd hdok
          simp only [evictLoop, if_neg he]
          rcases List.mem_cons.mp hd with rfl | hd
          · simp [he] at hdok
          · exact h d hd hdok

/-- Anything `clearOldCache` reports deleted came from the candidate
filter: a directory whose name length exceeds
`CACHE_DEPTH_THRESHOLD + 2`, whose `stat` and `rm` succeeded. -/
theorem clearOldCache_deleted_shape {probe : Nat → Except Unit Nat}
    {readdirOk : Bool} {entries ds : List FsEntry}
    (h : clearOldCache probe readdirOk entries = .ok ds) :
    ∀ d ∈ ds, d ∈ entries ∧ d.isDirectory = true ∧ d.statOk = true ∧
      d.rmOk = true ∧ CACHE_DEPTH_THRESHOLD + 2 < d.name.length := by
  intro d hd
  unfold clearOldCache at h
  cases hp : probe 0 with
  | error u => rw [hp] at h; cases h
  | ok free =>
      rw [hp] at h
      by_cases hf : free > CACHE_CLEAR_HIGH_THRESHOLD
      · simp only [if_pos hf, Except.ok.injEq] at h
        subst h; simp at hd
      · simp only [if_neg hf] at h
        cases hrd : readdirOk with
        | false => rw [hrd] at h; simp at h
        | true =>
            rw [hrd] at h
            simp only [Bool.not_true, Bool.false_eq_true, if_false] at h
            by_cases hempty : (evictionCandidates entries).isEmpty
            · simp only [if_pos hempty, Except.ok.injEq] at h
              subst h; simp at hd
            · simp only [if_neg hempty, Except.ok.injEq] at h
              subst h
              have hmem : d ∈ sortByBirth (evictionCandidates entries) :=
                ((evictLoop_sublist probe _ 1).subset) hd
              have hcand : d ∈ evictionCandidates entries := mem_sortByBirth.mp hmem
              have hrm : d.rmOk = true := evictLoop_rmOk probe _ 1 d hd
              rcases List.mem_filter.mp hcand with ⟨hent, hprops⟩
              simp only [Bool.and_eq_true, decide_eq_true_eq] at hprops
              exact ⟨hent, hprops.1.1, hprops.2, hrm, hprops.1.2⟩

/-! ## Sample cache entries used by concrete witnesses -/

/-- A foundational entry: name length 5 ≤ `CACHE_DEPTH_THRESHOLD + 2`. -/
def sampleShallow : FsEntry := ⟨"11www", true, 5, true, true⟩

/-- A deep entry: name length 10 > `CACHE_DEPTH_THRESHOLD + 2`. -/
def sampleDeep : FsEntry := ⟨"11wwwasdqe", true, 9, true, true⟩

/-- Another deep entry, created earlier than `sampleDeep`. -/
def sampleDeep2 : FsEntry := ⟨"11aaaaaaaa", true, 3, true, true⟩

/-- A deep entry whose `fs.stat` call fails. -/
def sampleStatFail : FsEntry := ⟨"11ssssssss", true, 1, false, true⟩

/-- A deep entry whose `fs.rm` call fails. -/
def sampleRmFail : FsEntry := ⟨"11dddddddd", true, 2, true, false⟩

/-- C1: for every cache entry whose directory name length is at most
`CACHE_DEPTH_THRESHOLD + 2` (token sequence of length ≤ 5 plus the
two-character episode/map prefix), `clearOldCache` never deletes that
entry, for every free-space value returned by the disk probe (and every
outcome of the other I/O calls). -/
theorem claim_C1_eviction_protects_shallow
    (probe : Nat → Except Unit Nat) (readdirOk : Bool)
    (entries ds : List FsEntry) (e : FsEntry)
    (hshallow : e.name.length ≤ CACHE_DEPTH_THRESHOLD + 2)
    (h : clearOldCache probe readdirOk entries = .ok ds) :
    e ∉ ds := by
  intro hmem
  have := (clearOldCache_deleted_shape h e hmem).2.2.2.2
  omega

/-- Witness for C1: a concrete eviction run under disk pressure deletes
the deep entry but the foundational one is not among the deletions. -/
theorem claim_C1_witness :
    clearOldCache (fun _ => Except.ok 0) true [sampleShallow, sampleDeep] =
      .ok [sampleDeep] ∧
    sampleShallow ∉ [sampleDeep] :=
  ⟨by decide,
   claim_C1_eviction_protects_shallow (fun _ => Except.ok 0) true
     [sampleShallow, sampleDeep] [sampleDeep] sampleShallow (by decide) (by decide)⟩

/-- C4: the claim says `clearOldCache` never raises, and the function's
own doc comment (line 98) agrees — but the initial `diskusage.checkSync`
(line 105) and `fs.readdir` (line 108) are outside every `try`, so their
failures propagate (first two conjuncts).  Failures of `stat`, of `rm`
and of the in-loop free-space re-check ARE swallowed (third conjunct:
the stat-failing entry is skipped, the rm-failing entry is skipped
silently, and the loop survives an erroring re-check). -/
theorem claim_C4_clearOldCache_can_throw :
    clearOldCache (fun _ => Except.error ()) true [sampleDeep] = .error () ∧
    clearOldCache (fun _ => Except.ok 0) false [sampleDeep] = .error () ∧
    clearOldCache (fun k => if k == 0 then Except.ok 0 else Except.error ())
      true [sampleStatFail, sampleRmFail, sampleDeep] = .ok [sampleDeep] := by
  refine ⟨by decide, by decide, by decide⟩

/-- Counterexample for C5: with free space exactly
`CACHE_CLEAR_HIGH_THRESHOLD` (1 GB) — which satisfies the claim's
"free space ≥ HIGH_THRESHOLD" — the code still runs eviction and
deletes an entry, because the guard on line 106 is strict (`>`). -/
theorem claim_C5_counterexample :
    CACHE_CLEAR_HIGH_THRESHOLD ≤ 2 ^ 30 ∧
    clearOldCache (fun _ => Except.ok (2 ^ 30)) true [sampleDeep] =
      .ok [sampleDeep] ∧
    ([sampleDeep] : List FsEntry) ≠ [] := by
  refine ⟨by decide, by decide, by decide⟩

/-- C5 (amended): `clearOldCache` deletes nothing when the initial probe
reports free space strictly above `CACHE_CLEAR_HIGH_THRESHOLD`;
otherwise it deletes only evictable entries (directories deeper than the
protection threshold whose `stat` and `rm` succeeded), in ascending
directory-creation-time order; and when it returns normally after
running eviction, either some free-space reading exceeded
`CACHE_CLEAR_LOW_THRESHOLD` (the loop's break condition) or every
evictable candidate whose deletion did not itself fail was deleted. -/
theorem claim_C5_eviction_behavior
    (probe : Nat → Except Unit Nat) (readdirOk : Bool)
    (entries ds : List FsEntry)
    (h : clearOldCache probe readdirOk entries = .ok ds) :
    (∀ free, probe 0 = .ok free → free > CACHE_CLEAR_HIGH_THRESHOLD → ds = []) ∧
    (∀ d ∈ ds, d ∈ entries ∧ d.isDirectory = true ∧ d.statOk = true ∧
       d.rmOk = true ∧ CACHE_DEPTH_THRESHOLD + 2 < d.name.length) ∧
    ds.Pairwise (fun a b => a.birthtime ≤ b.birthtime) ∧
    (∀ free₀, probe 0 = .ok free₀ → free₀ ≤ CACHE_CLEAR_HIGH_THRESHOLD →
       (∃ k v, probe k = .ok v ∧ v > CACHE_CLEAR_LOW_THRESHOLD) ∨
       (∀ d ∈ evictionCandidates entries, d.rmOk = true → d ∈ ds)) := by
  refine ⟨?_, clearOldCache_deleted_shape h, ?_, ?_⟩
  · intro free hp hf
    unfold clearOldCache at h
    rw [hp] at h
    simp only [if_pos hf, Except.ok.injEq] at h
    exact h.symm
  · unfold clearOldCache at h
    cases hp : probe 0 with
    | error u => rw [hp] at h; cases h
    | ok free =>
        rw [hp] at h
        by_cases hf : free > CACHE_CLEAR_HIGH_THRESHOLD
        · simp only [if_pos hf, Except.ok.injEq] at h
          subst h; simp
        · simp only [if_neg hf] at h
          cases hrd : readdirOk with
          | false => rw [hrd] at h; simp at h
          | true =>
              rw [hrd] at h
              simp only [Bool.not_true, Bool.false_eq_true, if_false] at h
              by_cases hempty : (evictionCandidates entries).isEmpty
              · rw [if_pos hempty] at h
                simp only [Except.ok.injEq] at h
                subst h; simp
              · rw [if_neg hempty] at h
                simp only [Except.ok.injEq] at h
                subst h
                exact List.Pairwise.sublist (evictLoop_sublist probe _ 1)
                  (pairwise_sortByBirth _)
  · intro free₀ hp0 hle
    unfold clearOldCache at h
    rw [hp0] at h
    have hf : ¬ free₀ > CACHE_CLEAR_HIGH_THRESHOLD := by omega
    simp only [if_neg hf] at h
    cases hrd : readdirOk with
    | false => rw [hrd] at h; simp at h
    | true =>
        rw [hrd] at h
        simp only [Bool.not_true, Bool.false_eq_true, if_false] at h
        by_cases hempty : (evictionCandidates entries).isEmpty
        · right
          intro d hd
          rw [List.isEmpty_iff] at hempty
          rw [hempty] at hd
          simp at hd
        · rw [if_neg hempty] at h
          simp only [Except.ok.injEq] at h
          subst h
          rcases evictLoop_complete probe (sortByBirth (evictionCandidates entries)) 1
            with hl | hr
          · exact Or.inl hl
          · right
            intro d hd hok
            exact hr d (mem_sortByBirth.mpr hd) hok

/-! ## Lemmas about forgeDemo -/

/-- Total version of `ticOf`, used to state the buffer layout (it agrees
with `ticOf` on the alphabet). -/
def ticRecD (c : Char) : List Int := (ticOf c).getD []

/-- The 60-byte block contributed by one expanded character. -/
def blockD (c : Char) : List Int :=
  (List.replicate INPUT_DURATION (ticRecD c)).flatten

/-- Characters of the alphabet have a 4-byte tick record. -/
theorem ticOf_of_mem_alphabet {c : Char} (h : c ∈ tokenAlphabet) :
    ∃ t, ticOf c = some t ∧ t.length = 4 := by
  fin_cases h <;> exact ⟨_, rfl, rfl⟩

/-- Expansion keeps characters in the alphabet. -/
theorem expandInputs_alphabet {inputs : List Char}
    (halpha : ∀ c ∈ inputs, c ∈ tokenAlphabet) :
    ∀ c ∈ expandInputs inputs, c ∈ tokenAlphabet := by
  intro c hc
  rw [expandInputs, List.mem_flatMap] at hc
  obtain ⟨a, ha, hc⟩ := hc
  by_cases he : (a == 'e') = true
  · rw [if_pos he] at hc
    have hce : c = 'e' := by simpa using hc
    subst hce
    decide
  · rw [if_neg he] at hc
    have hca : c = a := by simpa using hc
    subst hca
    exact halpha _ ha

/-- On an all-alphabet list, `mapM ticBlock` succeeds and yields the
blocks of `blockD`. -/
theorem mapM_ticBlock {l : List Char} (h : ∀ c ∈ l, c ∈ tokenAlphabet) :
    l.mapM ticBlock = some (l.map blockD) := by
  induction l with
  | nil => rfl
  | cons a t ih =>
      obtain ⟨tic, htic, hlen⟩ := ticOf_of_mem_alphabet (h a (List.mem_cons_self a t))
      have ht : t.mapM ticBlock = some (t.map blockD) :=
        ih fun c hc => h c (List.mem_cons_of_mem _ hc)
      rw [List.mapM_cons, ht]
      simp [ticBlock, blockD, ticRecD, htic]

/-- Index arithmetic through a `flatMap` whose blocks all have length
`L`. -/
theorem getElem?_flatMap_const {f : Char → List Int} {L : Nat} :
    ∀ (l : List Char) (i r : Nat), (∀ a ∈ l, (f a).length = L) →
      (hi : i < l.length) → r < L →
      (l.flatMap f)[L * i + r]? = (f (l.get ⟨i, hi⟩))[r]? := by
  intro l
  induction l with
  | nil => intro i r _ hi _; simp at hi
  | cons a t ih =>
      intro i r hf hi hr
      rw [List.flatMap_cons]
      cases i with
      | zero =>
          have ha : (f a).length = L := hf a (List.mem_cons_self a t)
          rw [Nat.mul_zero, Nat.zero_add, List.getElem?_append, if_pos (by omega)]
          rfl
      | succ i =>
          have ha : (f a).length = L := hf a (List.mem_cons_self a t)
          have hidx : (f a).length ≤ L * (i + 1) + r := by
            rw [ha]; nlinarith
          rw [List.getElem?_append_right hidx]
          have harith : L * (i + 1) + r - (f a).length = L * i + r := by
            rw [ha]; ring_nf; omega
          rw [harith]
          have hi' : i < t.length := by simpa using Nat.lt_of_succ_lt_succ hi
          rw [ih i r (fun c hc => hf c (List.mem_cons_of_mem _ hc)) hi' hr]
          rfl

/-- Index arithmetic through flattened replication of a 4-byte record. -/
theorem getElem?_flatten_replicate {x : List Int} (hx : x.length = 4) :
    ∀ (m j k : Nat), j < m → k < 4 →
      ((List.replicate m x).flatten)[4 * j + k]? = x[k]? := by
  intro m
  induction m with
  | zero => intro j k hj _; omega
  | succ m ih =>
      intro j k hj hk
      rw [List.replicate_succ, List.flatten_cons]
      cases j with
      | zero =>
          rw [Nat.mul_zero, Nat.zero_add, List.getElem?_append, if_pos (by omega)]
      | succ j =>
          have hidx : x.length ≤ 4 * (j + 1) + k := by omega
          rw [List.getElem?_append_right hidx]
          have harith : 4 * (j + 1) + k - x.length = 4 * j + k := by omega
          rw [harith]
          exact ih j k (Nat.lt_of_succ_lt_succ hj) hk

/-- Block lengths are 60 on alphabet characters. -/
theorem blockD_length {c : Char} (h : c ∈ tokenAlphabet) :
    (blockD c).length = 60 := by
  fin_cases h <;> rfl

/-- Total length of a constant-block `flatMap`. -/
theorem flatMap_length_const {f : Char → List Int} {L : Nat} :
    ∀ (l : List Char), (∀ a ∈ l, (f a).length = L) →
      (l.flatMap f).length = L * l.length := by
  intro l
  induction l with
  | nil => intro _; simp
  | cons a t ih =>
      intro hf
      rw [List.flatMap_cons, List.length_append,
        hf a (List.mem_cons_self a t), ih fun c hc => hf c (List.mem_cons_of_mem _ hc)]
      simp [List.length_cons]
      ring

/-- `toInt8` is the identity on the signed-byte range. -/
theorem toInt8_eq_self {n : Int} (h1 : -128 ≤ n) (h2 : n ≤ 127) :
    toInt8 n = n := by
  unfold toInt8
  have : (n + 128) % 256 = n + 128 := Int.emod_eq_of_lt (by omega) (by omega)
  omega

/-- Witness for C5: a concrete pressured run deletes both deep entries,
oldest first. -/
theorem claim_C5_witness :
    clearOldCache (fun _ => Except.ok 0) true [sampleDeep, sampleDeep2] =
      .ok [sampleDeep2, sampleDeep] ∧
    ([sampleDeep2, sampleDeep] : List FsEntry).Pairwise
      (fun a b => a.birthtime ≤ b.birthtime) :=
  ⟨by decide,
   (claim_C5_eviction_behavior (fun _ => Except.ok 0) true [sampleDeep, sampleDeep2]
     [sampleDeep2, sampleDeep] (by decide)).2.2.1⟩

/-- Counterexample for C7: the claim quantifies over every episode
value, but an `Int8Array` cell stores values modulo 2^8, so episode 300
is recorded as 44, not 300. -/
theorem claim_C7_counterexample :
    (forgeDemo ['w'] 300 1).map (fun buf => buf[2]?) = some (some 44) ∧
    (300 : Int) ≠ 44 := by
  refine ⟨by decide, by decide⟩

/-- C7 (amended): for every token string over the alphabet and every
episode and map value in the signed-byte range `[-128, 127]` (which
covers all values the caller's clamping can produce), `forgeDemo`
triples every `'e'` and expands other tokens unchanged, and returns a
buffer of exactly `14 + 60*n` cells (`n` = expanded token count) whose
13-cell header holds version 109, skill 0, the given episode and map,
and single-player flags; whose final cell is the `0x80` terminator
(signed value `-128`); and which holds, for expanded character `i`, 15
identical 4-byte tick records at offsets `13 + 60*i + 4*j` encoding that
token's forward/back delta, turn delta, and action bitmask. -/
theorem claim_C7_forgeDemo_layout (inputs : List Char) (episode mp : Int)
    (halpha : ∀ c ∈ inputs, c ∈ tokenAlphabet)
    (hep1 : -128 ≤ episode) (hep2 : episode ≤ 127)
    (hmp1 : -128 ≤ mp) (hmp2 : mp ≤ 127) :
    ∃ buf, forgeDemo inputs episode mp = some buf ∧
      buf.length = 14 + 60 * (expandInputs inputs).length ∧
      buf.take 13 = [109, 0, episode, mp, 0, 0, 0, 0, 0, 1, 0, 0, 0] ∧
      buf[13 + 60 * (expandInputs inputs).length]? = some (-128) ∧
      (∀ i, (hi : i < (expandInputs inputs).length) →
        ∃ tic, ticOf ((expandInputs inputs).get ⟨i, hi⟩) = some tic ∧
          ∀ j k, j < INPUT_DURATION → k < 4 →
            buf[13 + (60 * i + (4 * j + k))]? = tic[k]?) := by
  have hvalid : ∀ c ∈ expandInputs inputs, c ∈ tokenAlphabet :=
    expandInputs_alphabet halpha
  have hmapM : (expandInputs inputs).mapM ticBlock =
      some ((expandInputs inputs).map blockD) := mapM_ticBlock hvalid
  have hblock : ∀ c ∈ expandInputs inputs, (blockD c).length = 60 :=
    fun c hc => blockD_length (hvalid c hc)
  have hlen : ((expandInputs inputs).flatMap blockD).length =
      60 * (expandInputs inputs).length := flatMap_length_const _ hblock
  have h13 : ([109, 0, episode, mp, 0, 0, 0, 0, 0, 1, 0, 0, 0] : List Int).length = 13 := rfl
  refine ⟨[109, 0, episode, mp, 0, 0, 0, 0, 0, 1, 0, 0, 0]
      ++ (expandInputs inputs).flatMap blockD ++ [-128], ?_, ?_, ?_, ?_, ?_⟩
  · simp only [forgeDemo]
    rw [hmapM]
    simp only [Option.map_some']
    rw [← List.flatMap_def, toInt8_eq_self hep1 hep2, toInt8_eq_self hmp1 hmp2]
  · simp only [List.length_append, hlen, h13, List.length_cons, List.length_nil]
    omega
  · rw [List.append_assoc, ← h13, List.take_left]
  · rw [List.append_assoc, List.getElem?_append_right (by rw [h13]; omega), h13]
    have harith : 13 + 60 * (expandInputs inputs).length - 13 =
        60 * (expandInputs inputs).length := by omega
    rw [harith, List.getElem?_append_right (le_of_eq hlen)]
    rw [hlen]
    simp
  · intro i hi
    obtain ⟨tic, htic, hticlen⟩ :=
      ticOf_of_mem_alphabet (hvalid _ (List.get_mem (expandInputs inputs) i hi))
    refine ⟨tic, htic, ?_⟩
    intro j k hj hk
    have hr : 4 * j + k < 60 := by
      have hj' : j ≤ 14 := by
        have : INPUT_DURATION = 15 := rfl
        omega
      omega
    rw [List.append_assoc, List.getElem?_append_right (by rw [h13]; omega), h13]
    have harith : 13 + (60 * i + (4 * j + k)) - 13 = 60 * i + (4 * j + k) := by omega
    rw [harith]
    have hin : 60 * i + (4 * j + k) < ((expandInputs inputs).flatMap blockD).length := by
      rw [hlen]
      have := Nat.mul_le_mul_left 60 (Nat.succ_le_of_lt hi)
      omega
    rw [List.getElem?_append, if_pos hin]
    rw [getElem?_flatMap_const (expandInputs inputs) i (4 * j + k) hblock hi hr]
    have hrec : ticRecD ((expandInputs inputs).get ⟨i, hi⟩) = tic := by
      rw [ticRecD, htic]
      rfl
    rw [blockD, hrec]
    exact getElem?_flatten_replicate hticlen INPUT_DURATION j k hj hk

/-- Witness for C7 at a concrete input: the token `'q'` on E1M2. -/
theorem claim_C7_witness :
    (∃ buf, forgeDemo ['q'] 1 2 = some buf ∧
      buf.length = 14 + 60 * (expandInputs ['q']).length ∧
      buf.take 13 = [109, 0, 1, 2, 0, 0, 0, 0, 0, 1, 0, 0, 0] ∧
      buf[13 + 60 * (expandInputs ['q']).length]? = some (-128) ∧
      (∀ i, (hi : i < (expandInputs ['q']).length) →
        ∃ tic, ticOf ((expandInputs ['q']).get ⟨i, hi⟩) = some tic ∧
          ∀ j k, j < INPUT_DURATION → k < 4 →
            buf[13 + (60 * i + (4 * j + k))]? = tic[k]?)) :=
  claim_C7_forgeDemo_layout ['q'] 1 2 (by decide) (by decide) (by decide)
    (by decide) (by decide)

/-- C9: `forgeDemo` is pure and deterministic — two invocations with
identical `(tokens, episode, map)` arguments return byte-identical
buffers.  In this embedding the function consults no external state, so
the result depends only on its arguments. -/
theorem claim_C9_forgeDemo_deterministic (i1 i2 : List Char) (e1 e2 m1 m2 : Int)
    (hi : i1 = i2) (he : e1 = e2) (hm : m1 = m2) :
    forgeDemo i1 e1 m1 = forgeDemo i2 e2 m2 := by
  subst hi
  subst he
  subst hm
  rfl

/-- Witness for C9 at a concrete argument tuple. -/
theorem claim_C9_witness : forgeDemo ['w', 'e'] 1 1 = forgeDemo ['w', 'e'] 1 1 :=
  claim_C9_forgeDemo_deterministic ['w', 'e'] ['w', 'e'] 1 1 1 1 rfl rfl rfl

/-- Counterexample for C8: the token part `"3.www"` does not start with
two digits, so per the claim nothing should be consumed and
episode = map = 1; but `!isNaN("3.")` holds in JS (`Number("3.") = 3`),
so the code consumes both characters, making episode 3 and map NaN. -/
theorem claim_C8_counterexample :
    '.'.isDigit = false ∧
    decodeInputs "3.www".toList = (some 3, none, ['w', 'w', 'w']) ∧
    decodeInputs "3.www".toList ≠ (some 1, some 1, ['w', 'w', 'w']) := by
  refine ⟨by decide, by decide, by decide⟩

/-- C8 (amended): decoding consumes the first two characters exactly
when that two-character prefix passes JS numeric parsing (`!isNaN`),
which includes every two-digit prefix but also forms such as `"3."`;
when both consumed characters are digits they become episode and map
clamped into `[1,3]` and `[1,8]`; a consumed non-digit character yields
NaN instead.  When the prefix fails numeric parsing, episode = map = 1
and nothing is consumed.  The remaining characters are filtered to the
`wasdqe` alphabet and an empty result is replaced by the placeholder
`"e"`; path `/wwwi.webp` yields episode 1, map 1, sequence `"www"`. -/
theorem claim_C8_decode_behavior :
    (∀ c₁ c₂ rest, c₁.isDigit = true → c₂.isDigit = true →
       decodeInputs (c₁ :: c₂ :: rest) =
         (some (max (min ((c₁.toNat : Int) - ('0'.toNat : Int)) 3) 1),
          some (max (min ((c₂.toNat : Int) - ('0'.toNat : Int)) 8) 1),
          if (filterInputs rest).isEmpty then ['e'] else filterInputs rest)) ∧
    (∀ inputs, prefixIsNumeric (inputs.take 2) = false →
       decodeInputs inputs =
         (some 1, some 1,
          if (filterInputs inputs).isEmpty then ['e'] else filterInputs inputs)) ∧
    decodePath "/wwwi.webp".toList = (some 1, some 1, ['w', 'w', 'w']) := by
  refine ⟨?_, ?_, by decide⟩
  · intro c₁ c₂ rest h1 h2
    simp [decodeInputs, prefixIsNumeric, h1, h2, clampJs, charToNum]
  · intro inputs h
    simp [decodeInputs, h]

/-- Witness for C8: a concrete digit-prefixed path decodes with the
prefix consumed and clamped. -/
theorem claim_C8_witness :
    decodeInputs ['2', '5', 'x', 'w'] = (some 2, some 5, ['w']) := by
  have h := claim_C8_decode_behavior.1 '2' '5' ['x', 'w'] (by decide) (by decide)
  rw [h]
  decide

/-! ## Lemmas about the request pipeline -/

/-- A list is a component-wise leading segment of itself. -/
theorem isPrefixOf_self {α : Type} [BEq α] [LawfulBEq α] :
    ∀ (l : List α), l.isPrefixOf l = true := by
  intro l
  induction l with
  | nil => rfl
  | cons a t ih => simp [List.isPrefixOf, ih]

/-- A predecessor snapshot path is never the scratch directory. -/
theorem saveDSG_ne_tmpDir (em : String) (save : List Char) (n : String) :
    saveDSG em save ≠ tmpDir n := by
  simp [saveDSG, tmpDir]

/-- Adding an unrelated path does not change an existence answer. -/
theorem fsExists_fsAdd_of_ne {p q : DPath} (fs : Fsys) (h : p ≠ q) :
    fsExists (fsAdd q fs) p = fsExists fs p := by
  simp only [fsExists, fsAdd, List.contains_cons]
  have hbeq : (p == q) = false := by simpa using h
  rw [hbeq]
  simp

/-- Removing a freshly created scratch directory restores the
filesystem. -/
theorem fsRmRec_fresh {n : String} {fs : Fsys}
    (hfresh : ∀ q ∈ fs, (tmpDir n).isPrefixOf q = false) :
    fsRmRec (tmpDir n) (fsAdd (tmpDir n) fs) = fs := by
  simp only [fsRmRec, fsAdd, List.filter_cons, isPrefixOf_self,
    Bool.not_true, Bool.false_eq_true, if_false]
  exact List.filter_eq_self.mpr fun q hq => by rw [hfresh q hq]; rfl

/-- C2: for every request whose key has a non-empty predecessor
(token-sequence length > `SAVE_THRESHOLD`), if the preview artifact is
not cached and the predecessor's snapshot file does not exist, then
`handleRequest` returns status 500 with no-cache headers, creates no
cache entry directory, removes the scratch directory (the filesystem is
returned unchanged), and performs no retry (the trace is the bare
entry event: no log record, no second entry). -/
theorem claim_C2_continuity_gate (env : Env) (req : List Char) (retry : Bool)
    (fs : Fsys)
    (hlen : ¬ req.length > 220)
    (hwxbp : hasInfix "i.wxbp".toList req = false)
    (hstart : (req == "/i.webp".toList) = false)
    (hfav : (req == "/favicon.ico".toList) = false)
    (hsuffix : "i.webp".toList.isSuffixOf req = true)
    (hmiss : fsExists fs (outputWEBP (reqEm req) (reqInputs req)) = false)
    (hsave : (reqSave req).isEmpty = false)
    (hdsg : fsExists fs (saveDSG (reqEm req) (reqSave req)) = false)
    (hfresh : ∀ q ∈ fs,
      (tmpDir (if retry then env.attempt2 else env.attempt1).tmpName).isPrefixOf q = false) :
    handleRequest env req retry fs = (fs, [Ev.enter retry], ⟨500, "", true⟩) := by
  have hdsg1 : fsExists
      (fsAdd (tmpDir (if retry then env.attempt2 else env.attempt1).tmpName) fs)
      (saveDSG (reqEm req) (reqSave req)) = false := by
    rw [fsExists_fsAdd_of_ne fs (saveDSG_ne_tmpDir _ _ _)]
    exact hdsg
  have hround : handleRound env req retry fs =
      (fs, [Ev.enter retry], .done ⟨500, "", true⟩) := by
    simp only [handleRound]
    rw [if_neg hlen,
      if_neg (by simpa using hwxbp),
      if_neg (by simpa using hstart),
      if_neg (by simpa using hfav),
      if_neg (by simpa using hsuffix),
      if_neg (by simp [hmiss]),
      if_pos (by rw [hsave, hdsg1]; rfl),
      fsRmRec_fresh hfresh]
  rw [handleRequest, hround]

/-- Witness for C2: a concrete request whose predecessor snapshot is
missing is answered with a bare 500 and an unchanged filesystem. -/
theorem claim_C2_witness :
    handleRequest ⟨⟨"t1", true, .ok "", true, true, true, .ok "", .ok "", true,
        .ok "", true, "T1"⟩,
      ⟨"t2", true, .ok "", true, true, true, .ok "", .ok "", true,
        .ok "", true, "T2"⟩⟩
      "/12wwi.webp".toList false [] = ([], [Ev.enter false], ⟨500, "", true⟩) :=
  claim_C2_continuity_gate _ _ false [] (by decide) (by decide) (by decide)
    (by decide) (by decide) (by decide) (by decide) (by decide)
    (by intro q hq; cases hq)

/-- C3: on a cache miss whose render attempt fails (any unrecovered
failure while forging, simulating, concatenating, transcoding or
promoting makes `runAttempt` report failure), `handleRequest` appends a
timestamped record to the error log and re-runs the whole pipeline
exactly once from the top; when the second attempt also fails it
returns the fixed terminal error image response (status 200,
`messages/error.webp`, no-cache headers) instead of raising.  The
resulting trace shows exactly two pipeline entries and the two
timestamped log records. -/
theorem claim_C3_retry_then_error (env : Env) (req : List Char)
    (fs fs2 fs3 fs4 fs5 : Fsys) (evA1 evA2 : List Ev)
    (hlen : ¬ req.length > 220)
    (hwxbp : hasInfix "i.wxbp".toList req = false)
    (hstart : (req == "/i.webp".toList) = false)
    (hfav : (req == "/favicon.ico".toList) = false)
    (hsuffix : "i.webp".toList.isSuffixOf req = true)
    (hmiss1 : fsExists fs (outputWEBP (reqEm req) (reqInputs req)) = false)
    (hgate1 : (reqSave req).isEmpty = false →
      fsExists (fsAdd (tmpDir env.attempt1.tmpName) fs)
        (saveDSG (reqEm req) (reqSave req)) = true)
    (hfs2 : fs2 = if fsExists (fsAdd (tmpDir env.attempt1.tmpName) fs)
          (cacheDir (reqEm req) (reqInputs req)) then
        fsAdd (tmpDir env.attempt1.tmpName) fs
      else fsAdd (cacheDir (reqEm req) (reqInputs req))
        (fsAdd (tmpDir env.attempt1.tmpName) fs))
    (hA1 : runAttempt env.attempt1 (reqEm req) (reqInputs req) (reqSave req) fs2 =
      (fs3, evA1, true))
    (hmiss2 : fsExists fs3 (outputWEBP (reqEm req) (reqInputs req)) = false)
    (hgate2 : (reqSave req).isEmpty = false →
      fsExists (fsAdd (tmpDir env.attempt2.tmpName) fs3)
        (saveDSG (reqEm req) (reqSave req)) = true)
    (hfs4 : fs4 = if fsExists (fsAdd (tmpDir env.attempt2.tmpName) fs3)
          (cacheDir (reqEm req) (reqInputs req)) then
        fsAdd (tmpDir env.attempt2.tmpName) fs3
      else fsAdd (cacheDir (reqEm req) (reqInputs req))
        (fsAdd (tmpDir env.attempt2.tmpName) fs3))
    (hA2 : runAttempt env.attempt2 (reqEm req) (reqInputs req) (reqSave req) fs4 =
      (fs5, evA2, true)) :
    handleRequest env req false fs =
      (fsRmRec (tmpDir env.attempt1.tmpName)
        (fsRmRec (tmpDir env.attempt2.tmpName) fs5),
       ([Ev.enter false] ++ evA1 ++ [Ev.logged env.attempt1.time false]) ++
         ([Ev.enter true] ++ evA2 ++ [Ev.logged env.attempt2.time true]),
       ⟨200, "messages/error.webp", true⟩) := by
  have hgate1' : ¬ ((!(reqSave req).isEmpty &&
      !fsExists (fsAdd (tmpDir env.attempt1.tmpName) fs)
        (saveDSG (reqEm req) (reqSave req))) = true) := by
    intro hc
    rw [Bool.and_eq_true] at hc
    have hie : (reqSave req).isEmpty = false := by simpa using hc.1
    have := hgate1 hie
    rw [this] at hc
    simp at hc
  have hgate2' : ¬ ((!(reqSave req).isEmpty &&
      !fsExists (fsAdd (tmpDir env.attempt2.tmpName) fs3)
        (saveDSG (reqEm req) (reqSave req))) = true) := by
    intro hc
    rw [Bool.and_eq_true] at hc
    have hie : (reqSave req).isEmpty = false := by simpa using hc.1
    have := hgate2 hie
    rw [this] at hc
    simp at hc
  have hsel1 : (if (false : Bool) = true then env.attempt2 else env.attempt1) =
      env.attempt1 := rfl
  have hsel2 : (if (true : Bool) = true then env.attempt2 else env.attempt1) =
      env.attempt2 := rfl
  have hround1 : handleRound env req false fs =
      (fs3, [Ev.enter false] ++ evA1 ++ [Ev.logged env.attempt1.time false],
       .failedRetry env.attempt1.tmpName) := by
    simp only [handleRound, hsel1]
    rw [if_neg hlen,
      if_neg (by simpa using hwxbp),
      if_neg (by simpa using hstart),
      if_neg (by simpa using hfav),
      if_neg (by simpa using hsuffix),
      if_neg (by simp [hmiss1])]
    rw [if_neg hgate1', ← hfs2, hA1]
  have hround2 : handleRound env req true fs3 =
      (fsRmRec (tmpDir env.attempt2.tmpName) fs5,
       [Ev.enter true] ++ evA2 ++ [Ev.logged env.attempt2.time true],
       .done ⟨200, "messages/error.webp", true⟩) := by
    simp only [handleRound, hsel2, eq_self_iff_true, if_true]
    rw [if_neg hlen,
      if_neg (by simpa using hwxbp),
      if_neg (by simpa using hstart),
      if_neg (by simpa using hfav),
      if_neg (by simpa using hsuffix),
      if_neg (by simp [hmiss2])]
    rw [if_neg hgate2', ← hfs4, hA2]
  simp only [handleRequest, hround1, hround2]

/-- A first attempt that fails at forging: `Bun.write` of the demo file
throws, timestamp T1. -/
def sampleBad1 : AttemptEnv :=
  ⟨"t1", false, .ok "", true, true, true, .ok "", .ok "", true, .ok "", true, "T1"⟩

/-- A second attempt that also fails at forging, timestamp T2. -/
def sampleBad2 : AttemptEnv :=
  ⟨"t2", false, .ok "", true, true, true, .ok "", .ok "", true, .ok "", true, "T2"⟩

/-- Witness for C3: both attempts for `/wi.webp` fail, producing two
log records, two pipeline entries, and the terminal error artifact. -/
theorem claim_C3_witness :
    handleRequest ⟨sampleBad1, sampleBad2⟩ "/wi.webp".toList false [] =
      ([["cache", "11w"]],
       [Ev.enter false, Ev.logged "T1" false, Ev.enter true, Ev.logged "T2" true],
       ⟨200, "messages/error.webp", true⟩) := by
  have h := claim_C3_retry_then_error ⟨sampleBad1, sampleBad2⟩ "/wi.webp".toList
    [] [["cache", "11w"], ["tmp", "t1"]] [["cache", "11w"], ["tmp", "t1"]]
    [["tmp", "t2"], ["cache", "11w"], ["tmp", "t1"]]
    [["tmp", "t2"], ["cache", "11w"], ["tmp", "t1"]] [] []
    (by decide) (by decide) (by decide) (by decide) (by decide) (by decide)
    (fun h => absurd h (by decide)) (by decide) (by decide) (by decide)
    (fun h => absurd h (by decide)) (by decide) (by decide)
  rw [h]
  decide

/-- C6: when the render attempt reaches the preview-transcoding step
(demo written, render adopted, snapshot present and promotable) and the
transcoder invocation fails, the attempt fails exactly when the
captured output does NOT say the target preview already exists; when it
does say so, the error is suppressed and the pipeline proceeds as if
the step succeeded, going on to promote the snapshot. -/
theorem claim_C6_transcode_race (a : AttemptEnv) (em : String)
    (inputs save : List Char) (fs : Fsys) (s : String)
    (hw : a.writeDemoOk = true)
    (hsave : save.isEmpty = true)
    (hrender : a.doomMakesRender = true)
    (hrr : a.renameRenderOk = true)
    (hsv : a.doomMakesSave = true)
    (hrs : a.renameSaveOk = true)
    (hffw : a.ffWebp = .fail s) :
    ((runAttempt a em inputs save fs).2.2 = !(strContains s overwriteMsg)) ∧
    (strContains s overwriteMsg = true →
      Ev.promotedSave (cacheDir em inputs ++ ["doomsav0.dsg"]) ∈
        (runAttempt a em inputs save fs).2.1) := by
  cases hs : strContains s overwriteMsg with
  | true =>
      constructor
      · simp [runAttempt, hw, hsave, hrender, hrr, hsv, hrs, hffw, hs,
          fsRename, fsAdd, tmpDir, cacheDir, outputMP4, outputWEBP]
      · intro _
        simp [runAttempt, hw, hsave, hrender, hrr, hsv, hrs, hffw, hs,
          fsRename, fsAdd, tmpDir, cacheDir, outputMP4, outputWEBP]
  | false =>
      constructor
      · simp [runAttempt, hw, hsave, hrender, hrr, hsv, hrs, hffw, hs,
          fsRename, fsAdd, tmpDir, cacheDir, outputMP4, outputWEBP]
      · intro hc
        cases hc

/-- An attempt whose preview transcode collides with a concurrent
writer: ffmpeg refuses to overwrite the existing target. -/
def sampleRace : AttemptEnv :=
  ⟨"t1", true, .ok "", true, true, true, .ok "", .ok "", true,
   .fail "File output.webp already exists. Overwrite? [y/N] Not overwriting - exiting",
   true, "T1"⟩

/-- Witness for C6: the colliding attempt is not a failure and still
promotes its snapshot. -/
theorem claim_C6_witness :
    (runAttempt sampleRace "11" ['w'] [] []).2.2 = false ∧
    Ev.promotedSave (cacheDir "11" ['w'] ++ ["doomsav0.dsg"]) ∈
      (runAttempt sampleRace "11" ['w'] [] []).2.1 := by
  have h := claim_C6_transcode_race sampleRace "11" ['w'] [] []
    "File output.webp already exists. Overwrite? [y/N] Not overwriting - exiting"
    rfl rfl rfl rfl rfl rfl rfl
  exact ⟨by rw [h.1]; decide, h.2 (by decide)⟩

/-- The trace of one render attempt has one of four shapes: no
artifact event, only a preview write, a preview write followed by the
snapshot promotion, or (in the suppressed-collision case) only the
snapshot promotion. -/
theorem runAttempt_trace_cases (a : AttemptEnv) (em : String)
    (inputs save : List Char) (fs : Fsys) :
    (runAttempt a em inputs save fs).2.1 = [] ∨
    (∃ p, (runAttempt a em inputs save fs).2.1 = [Ev.wroteWebp p]) ∨
    (∃ p q, (runAttempt a em inputs save fs).2.1 =
      [Ev.wroteWebp p, Ev.promotedSave q]) ∨
    (∃ q, (runAttempt a em inputs save fs).2.1 = [Ev.promotedSave q]) := by
  cases hffw : a.ffWebp with
  | ok s =>
      simp only [runAttempt, hffw]
      by_cases hw : a.writeDemoOk
      case neg => simp [hw]
      case pos =>
        simp only [hw, Bool.not_true, Bool.false_eq_true, if_false]
        split
        · simp
        · split <;> simp
  | fail s =>
      simp only [runAttempt, hffw]
      by_cases hw : a.writeDemoOk
      case neg => simp [hw]
      case pos =>
        simp only [hw, Bool.not_true, Bool.false_eq_true, if_false]
        split
        · simp
        · by_cases hs : strContains s overwriteMsg
          · simp only [hs, if_true]
            split <;> simp
          · simp [hs]

/-- A fully successful attempt oracle. -/
def sampleAttemptOK : AttemptEnv :=
  ⟨"t1", true, .ok "", true, true, true, .ok "", .ok "", true, .ok "", true, "T1"⟩

/-- An attempt whose engine produces no snapshot file, so the preview is
written but the snapshot promotion (`fs.rename`) fails. -/
def sampleAttemptNoSave : AttemptEnv :=
  ⟨"t1", true, .ok "", true, false, true, .ok "", .ok "", true, .ok "", true, "T1"⟩

/-- Environment where both attempts lack the snapshot. -/
def sampleEnvNoSave : Env := ⟨sampleAttemptNoSave, ⟨"t2", true, .ok "", true,
  false, true, .ok "", .ok "", true, .ok "", true, "T2"⟩⟩

/-- Environment with fully successful attempts. -/
def sampleEnvOK : Env := ⟨sampleAttemptOK, ⟨"t2", true, .ok "", true, true,
  true, .ok "", .ok "", true, .ok "", true, "T2"⟩⟩

/-- The filesystem state after `sampleEnvNoSave` served `/wi.webp`. -/
def sampleFsAfter : Fsys := (handleRequest sampleEnvNoSave "/wi.webp".toList false []).1

/-- C10: (1) in every render attempt, a preview write always precedes a
snapshot promotion in the event trace; consequently (2) a state is
reachable — here by an attempt whose engine produced no snapshot, so the
promotion failed after the preview was written and the retry became a
cache hit — in which the preview of key K exists (K is treated as
cached) while K's snapshot is absent, and (3) in that state a request
for a key extending K by `SAVE_THRESHOLD` tokens fails the continuity
check with a 500. -/
theorem claim_C10_preview_before_snapshot :
    (∀ (a : AttemptEnv) (em : String) (inputs save : List Char) (fs : Fsys)
       (i j : Nat) (p q : DPath),
       (runAttempt a em inputs save fs).2.1[i]? = some (Ev.wroteWebp p) →
       (runAttempt a em inputs save fs).2.1[j]? = some (Ev.promotedSave q) →
       i < j) ∧
    (fsExists sampleFsAfter (outputWEBP "11" ['w']) = true ∧
     fsExists sampleFsAfter (saveDSG "11" ['w']) = false ∧
     (handleRequest sampleEnvNoSave "/wi.webp".toList false []).2.2 =
       ⟨200, dpathStr (outputWEBP "11" ['w']), true⟩) ∧
    (handleRequest sampleEnvOK "/wwi.webp".toList false sampleFsAfter).2.2 =
      ⟨500, "", true⟩ := by
  refine ⟨?_, ⟨by decide, by decide, by decide⟩, by decide⟩
  intro a em inputs save fs i j p q hi hj
  rcases runAttempt_trace_cases a em inputs save fs with h | ⟨p₀, h⟩ | ⟨p₀, q₀, h⟩ | ⟨q₀, h⟩
  · rw [h] at hi
    simp at hi
  · rw [h] at hj
    cases j with
    | zero => simp at hj
    | succ j => simp at hj
  · rw [h] at hi hj
    cases i with
    | zero =>
        cases j with
        | zero => simp at hj
        | succ j =>
            cases j with
            | zero => omega
            | succ j => simp at hj
    | succ i =>
        cases i with
        | zero => simp at hi
        | succ i => simp at hi
  · rw [h] at hi
    cases i with
    | zero => simp at hi
    | succ i => simp at hi

/-- Witness for C10: in the fully successful run the preview write is
event 0 and the promotion event 1. -/
theorem claim_C10_witness :
    (runAttempt sampleAttemptOK "11" ['w'] [] []).2.1[0]? =
      some (Ev.wroteWebp (outputWEBP "11" ['w'])) ∧
    (runAttempt sampleAttemptOK "11" ['w'] [] []).2.1[1]? =
      some (Ev.promotedSave (cacheDir "11" ['w'] ++ ["doomsav0.dsg"])) ∧
    (0 : Nat) < 1 :=
  ⟨by decide, by decide,
   claim_C10_preview_before_snapshot.1 sampleAttemptOK "11" ['w'] [] [] 0 1
     (outputWEBP "11" ['w']) (cacheDir "11" ['w'] ++ ["doomsav0.dsg"])
     (by decide) (by decide)⟩

end Doomcord
